import Mathlib

/- Verification development for the basketball-reference webscraper
   (src/basketball_ref_webscraper/webscraper.py).  The Python functions are
   shallowly embedded: a fetched-and-parsed page is modelled by a structure
   holding exactly the DOM values the function reads, `Except Unit` models a
   raised Python exception, and the string primitives used by the code
   (slicing, split, strip, int(), strptime) are reimplemented over character
   lists so that every definition is executable. -/

namespace BasketballRef

def BASE_URL : String := "https://www.basketball-reference.com"

/-- Python slice s[a:b] (with a ≤ b): characters a, a+1, ..., b-1, tolerant of
short strings exactly as in Python. -/
def pySlice (s : String) (a b : Nat) : String :=
  ((s.data.drop a).take (b - a)).asString

/-- Python str.strip(): drop leading and trailing whitespace. -/
def pyStrip (s : String) : String :=
  ((s.data.dropWhile Char.isWhitespace).reverse.dropWhile Char.isWhitespace).reverse.asString

/-- Split a character list on a separator, keeping empty fields, as Python
str.split with an explicit one-character separator does. -/
def splitOnCharList (sep : Char) (l : List Char) : List (List Char) :=
  l.foldr
    (fun c acc =>
      match acc with
      | [] => [[c]]
      | cur :: rest => if c = sep then [] :: cur :: rest else (c :: cur) :: rest)
    [[]]

/-- Python s.split(sep) for a one-character separator. -/
def pySplit (s : String) (sep : Char) : List String :=
  (splitOnCharList sep s.data).map List.asString

def digitVal (c : Char) : Nat := c.toNat - 48

def digitsToNat (l : List Char) : Nat :=
  l.foldl (fun a c => a * 10 + digitVal c) 0

/-- Python int(s) on a string: strip whitespace, optional sign, then a
nonempty run of decimal digits (digit-grouping underscores are not modelled,
no input in this development uses them). -/
def pyInt (s : String) : Option Int :=
  match (pyStrip s).data with
  | [] => none
  | '-' :: rest =>
      if rest ≠ [] ∧ rest.all Char.isDigit then some (-(digitsToNat rest : Int)) else none
  | '+' :: rest =>
      if rest ≠ [] ∧ rest.all Char.isDigit then some ((digitsToNat rest : Int)) else none
  | l => if l.all Char.isDigit then some ((digitsToNat l : Int)) else none

/-- Python str.replace(pat, repl) with a nonempty pattern: replace every
occurrence, scanning left to right.  Structural recursion on a fuel bound
(the input length suffices: every step consumes at least one character). -/
def replaceAllAux (pat repl : List Char) : Nat → List Char → List Char
  | 0, _ => []
  | _ + 1, [] => []
  | fuel + 1, c :: rest =>
      if pat ≠ [] ∧ (c :: rest).take pat.length = pat then
        repl ++ replaceAllAux pat repl fuel ((c :: rest).drop pat.length)
      else
        c :: replaceAllAux pat repl fuel rest

def replaceAll (pat repl l : List Char) : List Char :=
  replaceAllAux pat repl l.length l

def replaceAllStr (pat repl s : String) : String :=
  (replaceAll pat.data repl.data s.data).asString

/-- Gregorian leap-year rule, as used by Python datetime. -/
def isLeapYear (y : Nat) : Bool :=
  y % 4 == 0 && (y % 100 != 0 || y % 400 == 0)

def daysInMonth (y m : Nat) : Nat :=
  if m = 2 then (if isLeapYear y then 29 else 28)
  else if m = 4 ∨ m = 6 ∨ m = 9 ∨ m = 11 then 30
  else 31

/-- CPython strptime directive %m: regex 1[0-2]|0[1-9]|[1-9], alternatives
tried in that order, consuming one or two characters. -/
def parseMonth : List Char → Option (Nat × List Char)
  | a :: b :: rest =>
      if a = '1' ∧ ('0' ≤ b ∧ b ≤ '2') then some (10 + digitVal b, rest)
      else if a = '0' ∧ ('1' ≤ b ∧ b ≤ '9') then some (digitVal b, rest)
      else if '1' ≤ a ∧ a ≤ '9' then some (digitVal a, b :: rest)
      else none
  | [a] => if '1' ≤ a ∧ a ≤ '9' then some (digitVal a, []) else none
  | [] => none

/-- CPython strptime directive %d: regex 3[01]|[12]\d|0[1-9]|[1-9],
alternatives tried in that order. -/
def parseDay : List Char → Option (Nat × List Char)
  | a :: b :: rest =>
      if a = '3' ∧ ('0' ≤ b ∧ b ≤ '1') then some (30 + digitVal b, rest)
      else if ('1' ≤ a ∧ a ≤ '2') ∧ b.isDigit then some (10 * digitVal a + digitVal b, rest)
      else if a = '0' ∧ ('1' ≤ b ∧ b ≤ '9') then some (digitVal b, rest)
      else if '1' ≤ a ∧ a ≤ '9' then some (digitVal a, b :: rest)
      else none
  | [a] => if '1' ≤ a ∧ a ≤ '9' then some (digitVal a, []) else none
  | [] => none

structure Date where
  year : Nat
  month : Nat
  day : Nat
deriving DecidableEq, Repr

/-- Python datetime.datetime.strptime(s, yearMonthDayFormat): %Y matches
exactly four digits, then %m and %d as above; any unconverted trailing data
is an error, and the datetime constructor validates year ≥ 1 and the day
against the month length. -/
def pyStrptimeYmd (s : String) : Option Date :=
  match s.data with
  | y1 :: y2 :: y3 :: y4 :: rest =>
      if y1.isDigit ∧ y2.isDigit ∧ y3.isDigit ∧ y4.isDigit then
        match parseMonth rest with
        | none => none
        | some (m, rest2) =>
          match parseDay rest2 with
          | none => none
          | some (d, rest3) =>
            if rest3 = [] then
              let y := digitsToNat [y1, y2, y3, y4]
              if 1 ≤ y ∧ 1 ≤ d ∧ d ≤ daysInMonth y m then some ⟨y, m, d⟩ else none
            else none
      else none
  | _ => none

/-- re.search of the pattern Game-space-digit with one capture group on the
digit: scan left to right, return the first digit following the literal
text Game and a space. -/
def searchGameDigit : List Char → Option Char
  | [] => none
  | c :: rest =>
      match (c :: rest).take 6 with
      | ['G', 'a', 'm', 'e', ' ', d] =>
          if d.isDigit then some d else searchGameDigit rest
      | _ => searchGameDigit rest

/-- Models a raised Python exception when the optional value is absent
(e.g. a failed find / attribute subscript / int() / strptime). -/
def req {α : Type} : Option α → Except Unit α
  | some a => .ok a
  | none => .error ()

/-- One tr element of a schedule table, modelled by the values the parser
reads from it: the row text (for the playoff-separator test), the csk
attribute of the visitor-team td, the csk attribute of the date th, and the
href of the anchor inside the box-score td when that anchor exists. -/
structure SchedRow where
  rowText : String
  visitorCsk : String
  dateCsk : String
  boxHref : Option String
deriving DecidableEq, Repr

/-- A parsed schedule page: the tr rows of its tbody and the hrefs of the
anchors inside the month-navigation filter div, in document order. -/
structure SchedPage where
  rows : List SchedRow
  filterHrefs : List String
deriving DecidableEq, Repr

structure ScheduleEntry where
  match_link : String
  match_date : String
  visit_team : String
  home_team : String
deriving DecidableEq, Repr

/-- get_match_data: slice the team codes out of the visitor-td csk, the date
out of the date-th csk, and take or synthesize the box-score link. -/
def get_match_data (m : SchedRow) : ScheduleEntry :=
  let team_names := m.visitorCsk
  let visit_team := pySlice team_names 0 3
  let home_team := pySlice team_names 13 16
  let match_date := pySlice m.dateCsk 0 8
  let match_link :=
    match m.boxHref with
    | some href => BASE_URL ++ href
    | none => BASE_URL ++ "/boxscores/" ++ match_date ++ home_team ++ "0.html"
  ⟨match_link, match_date, visit_team, home_team⟩

/-- The private month-link helper: BASE_URL prepended to each filter href. -/
def monthLinksOf (p : SchedPage) : List String :=
  p.filterHrefs.map (fun h => BASE_URL ++ h)

/-- The private row parser: keep the rows whose stripped text is not the
literal Playoffs separator, and map each to its ScheduleEntry. -/
def parseMatchesOf (p : SchedPage) : List ScheduleEntry :=
  (p.rows.filter (fun m => pyStrip m.rowText != "Playoffs")).map get_match_data

def seasonUrl (year : Nat) : String :=
  BASE_URL ++ "/leagues/NBA_" ++ toString year ++ "_games.html"

/-- get_all_schedule.  fetch models make_request composed with HTML parsing;
the second component records the URLs passed to make_request, in order: the
season page once, then every month link after the first. -/
def get_all_schedule (fetch : String → SchedPage) (year : Nat) :
    List ScheduleEntry × List String :=
  let u := seasonUrl year
  let text := fetch u
  let schedule_data := parseMatchesOf text
  let months := (monthLinksOf text).drop 1
  (months.foldl (fun acc mu => acc ++ parseMatchesOf (fetch mu)) schedule_data,
   u :: months)

/-- get_team_schedule: same page walk, keeping only rows whose home or
visiting team code equals the requested team. -/
def get_team_schedule (fetch : String → SchedPage) (team : String) (year : Nat) :
    List ScheduleEntry × List String :=
  let u := seasonUrl year
  let text := fetch u
  let team_schedule :=
    (parseMatchesOf text).filter (fun m => team == m.home_team || team == m.visit_team)
  let months := (monthLinksOf text).drop 1
  (months.foldl
      (fun acc mu =>
        acc ++ ((parseMatchesOf (fetch mu)).filter
          (fun m => team == m.home_team || team == m.visit_team)))
      team_schedule,
   u :: months)

/-- One td cell of a box-score footer row: its data-stat attribute and its
text. -/
structure BoxCell where
  dataStat : String
  text : String
deriving DecidableEq, Repr

/-- A parsed box-score page, holding the DOM values get_boxscore reads: the
hrefs of the anchors inside the strong elements of the scorebox div (in
document order), whether the all-games-in-series span exists, the h1 text,
and the page tables keyed by id, each given as its list of tfoot td cells. -/
structure BoxPage where
  scoreboxHrefs : List String
  hasSeriesLabel : Bool
  h1Text : String
  tables : List (String × List BoxCell)
deriving DecidableEq, Repr

/-- A Python scalar value as stored in the result dict: playoff_round is a
one-character digit string for playoff games and the integer 0 otherwise. -/
inductive PyScalar where
  | s (v : String)
  | i (v : Int)
deriving DecidableEq, Repr

structure BoxData where
  match_date : Date
  visit_team : String
  home_team : String
  is_playoff : Nat
  playoff_round : PyScalar
  stats : List (String × String)
  game_result : String
deriving DecidableEq, Repr

/-- Python dict read data[k] over the entries written in order: the last
assignment to a key wins, a missing key raises (none). -/
def dictGet (l : List (String × String)) (k : String) : Option String :=
  l.reverse.lookup k

/-- get_boxscore.  fetch models make_request composed with BeautifulSoup;
each req marks a lookup that raises in Python when the element, attribute,
key or parse is missing. -/
def get_boxscore (fetch : String → BoxPage) (request_url : String) :
    Except Unit BoxData := do
  let page := fetch request_url
  let match_date ← req (pyStrptimeYmd (pySlice request_url 47 55))
  let href0 ← req (page.scoreboxHrefs.get? 0)
  let visit_team ← req ((pySplit href0 '/').get? 2)
  let href1 ← req (page.scoreboxHrefs.get? 1)
  let home_team ← req ((pySplit href1 '/').get? 2)
  let is_playoff : Nat := if page.hasSeriesLabel then 1 else 0
  let playoff_round ←
    (if page.hasSeriesLabel then do
        let c ← req (searchGameDigit page.h1Text.data)
        pure (PyScalar.s (String.mk [c]))
      else pure (PyScalar.i 0))
  let vtab ← req (page.tables.lookup ("box-" ++ visit_team ++ "-game-basic"))
  let htab ← req (page.tables.lookup ("box-" ++ home_team ++ "-game-basic"))
  let visit_stats := vtab.filter (fun c => pyStrip c.text != "")
  let home_stats := htab.filter (fun c => pyStrip c.text != "")
  let stats :=
    (visit_stats.zip home_stats).foldl
      (fun acc p =>
        acc ++ [("visit_" ++ p.1.dataStat, p.1.text), ("home_" ++ p.2.dataStat, p.2.text)])
      []
  let hs ← req (dictGet stats ("home_pts"))
  let vs ← req (dictGet stats ("visit_pts"))
  let hp ← req (pyInt hs)
  let vp ← req (pyInt vs)
  let game_result := if hp > vp then home_team else visit_team
  pure ⟨match_date, visit_team, home_team, is_playoff, playoff_round, stats, game_result⟩

/-- A Python value stored in a roster record.  Floats are kept symbolic as
the source string handed to float(): no claim inspects the numeric value of
a float, only which coercion was applied and to which attribute. -/
inductive PyVal where
  | vInt (n : Int)
  | vFloat (src : String)
  | vStr (v : String)
deriving DecidableEq, Repr

/-- One td cell of a roster row: its data-stat attribute, its text, its csk
attribute when present, the href of its anchor when present, and the text of
its nested span when present. -/
structure RosterCell where
  dataStat : String
  text : String
  csk : Option String
  anchorHref : Option String
  spanText : Option String
deriving DecidableEq, Repr

def teamPageUrl (team : String) (year : Nat) : String :=
  BASE_URL ++ "/teams/" ++ team ++ "/" ++ toString year ++ ".html"

/-- playerid: url.split on slash, last component, with the .html suffix
text removed (str.split never yields an empty list, so the Python index -1
cannot fail; getLastD is exact). -/
def playerIdOfUrl (url : String) : String :=
  replaceAllStr (".html") "" ((pySplit url '/').getLastD (""))

/-- The dict entries one roster cell contributes, per the match on its
data-stat; a req marks a Python KeyError or AttributeError on a missing
attribute or anchor, and int() failure on a non-numeric weight. -/
def cellPairs (c : RosterCell) : Except Unit (List (String × PyVal)) :=
  match c.dataStat with
  | "weight" => do
      let n ← req (pyInt c.text)
      pure [("weight", PyVal.vInt n)]
  | "player" => do
      let csk ← req c.csk
      let url ← req c.anchorHref
      pure [("player", PyVal.vStr csk), ("url", PyVal.vStr url),
            ("playerid", PyVal.vStr (playerIdOfUrl url))]
  | "years_experience" => do
      let k ← req c.csk
      pure [("years_experience", PyVal.vFloat k)]
  | "flag" => do
      let t ← req c.spanText
      pure [("flag", PyVal.vStr t)]
  | "height" => do
      let k ← req c.csk
      pure [("height", PyVal.vFloat k)]
  | _ => pure [(c.dataStat, PyVal.vStr c.text)]

/-- The per-row loop of get_roster: the record is the ordered concatenation
of the entries contributed by each cell. -/
def processRow : List RosterCell → Except Unit (List (String × PyVal))
  | [] => pure []
  | c :: rest => do
      let ps ← cellPairs c
      let rs ← processRow rest
      pure (ps ++ rs)

def processRows : List (List RosterCell) → Except Unit (List (List (String × PyVal)))
  | [] => pure []
  | r :: rest => do
      let d ← processRow r
      let ds ← processRows rest
      pure (d :: ds)

/-- get_roster: fetch the team-season page (modelled as the td-cell lists of
the roster tbody rows, in table order) and build one record per row. -/
def get_roster (fetch : String → List (List RosterCell)) (team : String) (year : Nat) :
    Except Unit (List (List (String × PyVal))) :=
  processRows (fetch (teamPageUrl team year))

/-- A th cell of the comment-embedded injuries table; csk is its csk
attribute when present. -/
structure InjTh where
  csk : Option String
deriving DecidableEq, Repr

/-- The HTML document parsed out of the comment node: its first table, when
one exists, given as its th cells. -/
structure InjComment where
  table : Option (List InjTh)
deriving DecidableEq, Repr

/-- The all-injuries container div: any directly visible injuries table it
holds (never consulted by the code) and its first comment node. -/
structure InjContainer where
  directTable : Option (List InjTh)
  comment : Option InjComment
deriving DecidableEq, Repr

structure InjPage where
  container : Option InjContainer
deriving DecidableEq, Repr

/-- get_injury_report: missing container or missing comment return None;
a comment whose HTML holds no table raises (find returns None and find_all
is called on it); otherwise the csk values of the csk-bearing th cells. -/
def get_injury_report (fetch : String → InjPage) (team : String) (year : Nat) :
    Except Unit (Option (List String)) :=
  let page := fetch (teamPageUrl team year)
  match page.container with
  | none => .ok none
  | some container =>
    match container.comment with
    | none => .ok none
    | some commentDoc =>
      match commentDoc.table with
      | none => .error ()
      | some ths => .ok (some (ths.filterMap InjTh.csk))

/-- One attempt of the HTTP request inside make_request: a network error
(requests RequestException / ConnectionError), a successful response body,
or a non-network exception. -/
inductive Attempt where
  | netErr
  | ok (body : String)
  | err
deriving DecidableEq, Repr

/-- Modelled from the spec: the tenacity retry decorator on make_request
with stop never, a fixed 3-second wait and retry on the requests exception
types; the tenacity library itself is not part of src.  attempts gives the
outcome of the i-th underlying request, fuel bounds how far the unbounded
loop is inspected, and the result carries the total retry wait 3i when the
loop exits at attempt i. -/
def retryLoop (attempts : Nat → Attempt) : Nat → Nat → Option (Attempt × Nat)
  | 0, _ => none
  | fuel + 1, i =>
      match attempts i with
      | .netErr => retryLoop attempts fuel (i + 1)
      | a => some (a, 3 * i)

def make_request (attempts : Nat → Attempt) (fuel : Nat) : Option (Attempt × Nat) :=
  retryLoop attempts fuel 0

/-- Modelled from the spec: the ratelimit limits decorator with one call per
3-second period combined with sleep_and_retry; neither library is part of
src.  A fetch requested thinkDelay seconds after the previous one fired
fires at the later of its arrival and the previous firing plus 3. -/
def nextFire (lastFire thinkDelay : Nat) : Nat :=
  max (lastFire + thinkDelay) (lastFire + 3)

/-- The firing times of a run of consecutive fetches: the first at time
first, each later one arriving the corresponding delay after its
predecessor fired. -/
def fetchTimes (first : Nat) : List Nat → List Nat
  | [] => [first]
  | d :: ds => first :: fetchTimes (nextFire first d) ds

/- ------------------------------------------------------------------ -/
/- Helper lemmas                                                       -/
/- ------------------------------------------------------------------ -/

deriving instance DecidableEq for Except

lemma req_ok {α : Type} {o : Option α} {a : α} : req o = .ok a ↔ o = some a := by
  cases o <;> simp [req]

lemma except_bind_ok {α β : Type} {a : Except Unit α} {f : α → Except Unit β} {b : β} :
    (a >>= f) = .ok b ↔ ∃ x, a = .ok x ∧ f x = .ok b := by
  cases a <;> simp [Bind.bind, Except.bind]

lemma except_pure_ok {α : Type} {a b : α} :
    (pure a : Except Unit α) = .ok b ↔ a = b := by
  simp [pure, Except.pure]

lemma foldl_append_join {α β : Type} (f : α → List β) :
    ∀ (l : List α) (init : List β),
      l.foldl (fun acc x => acc ++ f x) init = init ++ (l.map f).flatten := by
  intro l
  induction l with
  | nil => intro init; simp
  | cons x xs ih => intro init; simp [List.foldl, ih]

lemma filter_join_map {α β : Type} (p : β → Bool) (f : α → List β) (l : List α) :
    (l.map (fun x => (f x).filter p)).flatten = ((l.map f).flatten).filter p := by
  induction l with
  | nil => simp
  | cons x xs ih => simp [List.filter_append, ih]

/- ------------------------------------------------------------------ -/
/- C3: season-wide schedule, fetch count and row concatenation        -/
/- ------------------------------------------------------------------ -/

/-- C3: for a season whose main schedule page exposes M month links,
get_all_schedule issues exactly 1 + (M - 1) fetch calls — the main page
once, then each month link after the first — and returns the concatenation,
in page order, of every table row that is not a playoff-separator row,
mapped through get_match_data. -/
theorem all_schedule_fetch_trace_and_rows (fetch : String → SchedPage) (year : Nat)
    (h : 1 ≤ (monthLinksOf (fetch (seasonUrl year))).length) :
    (get_all_schedule fetch year).2.length
      = 1 + ((monthLinksOf (fetch (seasonUrl year))).length - 1) ∧
    (get_all_schedule fetch year).2
      = seasonUrl year :: (monthLinksOf (fetch (seasonUrl year))).drop 1 ∧
    (get_all_schedule fetch year).1
      = ((get_all_schedule fetch year).2.map
          (fun u => ((fetch u).rows.filter
            (fun r => pyStrip r.rowText != "Playoffs")).map get_match_data)).flatten := by
  refine ⟨?_, rfl, ?_⟩
  · simp only [get_all_schedule, List.length_cons, List.length_drop]
    omega
  · simp [get_all_schedule, foldl_append_join, parseMatchesOf]

def c3MainPage : SchedPage :=
  ⟨[⟨"x", "LAL.202310240DEN,a", "202310240den", some ("/boxscores/202310240DEN.html")⟩,
    ⟨" Playoffs", "", "", none⟩],
   ["/leagues/NBA_2024_games-october.html", "/leagues/NBA_2024_games-november.html"]⟩

def c3MonthPage : SchedPage :=
  ⟨[⟨"y", "BOS.202311010NYK,b", "202311010nyk", none⟩], []⟩

def c3Fetch : String → SchedPage :=
  fun u => if u = seasonUrl 2024 then c3MainPage else c3MonthPage

theorem all_schedule_fetch_trace_and_rows_witness :
    (get_all_schedule c3Fetch 2024).2.length = 2 ∧
    (get_all_schedule c3Fetch 2024).1.length = 2 :=
  ⟨((all_schedule_fetch_trace_and_rows c3Fetch 2024 (by decide)).1).trans (by decide),
   by
    have h3 := (all_schedule_fetch_trace_and_rows c3Fetch 2024 (by decide)).2.2
    exact (congrArg List.length h3).trans (by decide)⟩

/- ------------------------------------------------------------------ -/
/- C4: per-row schedule field extraction                              -/
/- ------------------------------------------------------------------ -/

/-- C4: the visiting team code is the substring at offsets 0-3 of the
combined sort-key string, the home team code the substring at offsets 13-16,
the match date the first 8 characters of the date sort-key, and the match
link is the box-score anchor URL when the anchor is present, otherwise the
fixed base plus /boxscores/ plus date plus home-team code plus 0.html. -/
theorem match_data_field_slices (m : SchedRow) :
    (get_match_data m).visit_team = (m.visitorCsk.data.take 3).asString ∧
    (get_match_data m).home_team = ((m.visitorCsk.data.drop 13).take 3).asString ∧
    (get_match_data m).match_date = (m.dateCsk.data.take 8).asString ∧
    (∀ href, m.boxHref = some href →
      (get_match_data m).match_link = BASE_URL ++ href) ∧
    (m.boxHref = none →
      (get_match_data m).match_link
        = BASE_URL ++ "/boxscores/" ++ (get_match_data m).match_date
            ++ (get_match_data m).home_team ++ "0.html") := by
  refine ⟨rfl, rfl, rfl, ?_, ?_⟩
  · intro href hh
    simp [get_match_data, hh]
  · intro hh
    simp [get_match_data, hh]

def c4Row : SchedRow := ⟨"r", "LAL.202201010BOS,c", "202201010extra", none⟩

theorem match_data_field_slices_witness :
    (get_match_data c4Row).visit_team = "LAL" ∧
    (get_match_data c4Row).match_link
      = "https://www.basketball-reference.com/boxscores/20220101BOS0.html" :=
  ⟨((match_data_field_slices c4Row).1).trans (by decide),
   ((match_data_field_slices c4Row).2.2.2.2 rfl).trans (by decide)⟩

/- ------------------------------------------------------------------ -/
/- C5: team-filtered schedule refines the season-wide schedule        -/
/- ------------------------------------------------------------------ -/

lemma team_schedule_eq_filter (fetch : String → SchedPage) (team : String) (year : Nat) :
    (get_team_schedule fetch team year).1
      = (get_all_schedule fetch year).1.filter
          (fun m => team == m.home_team || team == m.visit_team) := by
  simp only [get_team_schedule, get_all_schedule, foldl_append_join,
    List.filter_append]
  rw [filter_join_map]

/-- C5: over the same fetched pages, get_team_schedule returns a subsequence
of get_all_schedule in which every entry has the requested team code as its
home team or its visiting team. -/
theorem team_schedule_sublist_and_filter (fetch : String → SchedPage)
    (team : String) (year : Nat) :
    List.Sublist (get_team_schedule fetch team year).1 (get_all_schedule fetch year).1 ∧
    ∀ m ∈ (get_team_schedule fetch team year).1,
      team = m.home_team ∨ team = m.visit_team := by
  rw [team_schedule_eq_filter]
  refine ⟨List.filter_sublist _, ?_⟩
  intro m hm
  have := (List.mem_filter.mp hm).2
  simpa [Bool.or_eq_true, beq_iff_eq] using this

def c5Fetch : String → SchedPage := fun _ => c3MainPage

theorem team_schedule_sublist_and_filter_witness :
    List.Sublist (get_team_schedule c5Fetch ("LAL") 2024).1
      (get_all_schedule c5Fetch 2024).1 ∧
    ("LAL" = (get_match_data ⟨"x", "LAL.202310240DEN,a", "202310240den",
        some ("/boxscores/202310240DEN.html")⟩).home_team ∨
     "LAL" = (get_match_data ⟨"x", "LAL.202310240DEN,a", "202310240den",
        some ("/boxscores/202310240DEN.html")⟩).visit_team) :=
  ⟨(team_schedule_sublist_and_filter c5Fetch ("LAL") 2024).1,
   (team_schedule_sublist_and_filter c5Fetch ("LAL") 2024).2 _ (by decide)⟩

/- ------------------------------------------------------------------ -/
/- C1: winner selection in get_boxscore                               -/
/- ------------------------------------------------------------------ -/

/-- C1 (amended): whenever get_boxscore succeeds, the home and visiting pts
dict entries parse as integers and game_result is the home team exactly when
home points are strictly greater than visiting points, the visiting team
otherwise — so a points tie is decided for the visiting team, not the home
team. -/
theorem game_result_strict_home_else_visitor (fetch : String → BoxPage) (url : String)
    (d : BoxData) (hs vs : String) (hp vp : Int)
    (h : get_boxscore fetch url = .ok d)
    (hhs : dictGet d.stats ("home_pts") = some hs)
    (hvs : dictGet d.stats ("visit_pts") = some vs)
    (hhp : pyInt hs = some hp)
    (hvp : pyInt vs = some vp) :
    d.game_result = (if hp > vp then d.home_team else d.visit_team) := by
  simp only [get_boxscore, except_bind_ok, req_ok, except_pure_ok] at h
  obtain ⟨md, hmd, href0, h0, visit, hv0, href1, h1, home, hh0, pr, hpr,
    vtab, hvt, htab, hht, hs0, hhs0, vs0, hvs0, hp0, hhp0, vp0, hvp0, hd⟩ := h
  subst hd
  simp only at hhs hvs
  rw [hhs0] at hhs
  rw [hvs0] at hvs
  obtain rfl : hs = hs0 := by injection hhs.symm
  obtain rfl : vs = vs0 := by injection hvs.symm
  rw [hhp0] at hhp
  rw [hvp0] at hvp
  obtain rfl : hp = hp0 := by injection hhp.symm
  obtain rfl : vp = vp0 := by injection hvp.symm
  rfl

def c1Url : String := BASE_URL ++ "/boxscores/202201010HOM.html"

def c1Page : BoxPage :=
  ⟨["/teams/VIS/2022.html", "/teams/HOM/2022.html"], false, "",
   [("box-VIS-game-basic", [⟨"pts", "101"⟩]), ("box-HOM-game-basic", [⟨"pts", "100"⟩])]⟩

def c1Data : BoxData :=
  ⟨⟨2022, 1, 1⟩, "VIS", "HOM", 0, PyScalar.i 0,
   [("visit_pts", "101"), ("home_pts", "100")], "VIS"⟩

theorem game_result_strict_home_else_visitor_witness :
    c1Data.game_result
      = (if (100 : Int) > 101 then c1Data.home_team else c1Data.visit_team) :=
  game_result_strict_home_else_visitor (fun _ => c1Page) c1Url c1Data ("100") "101" 100 101
    (by decide) (by decide) (by decide) (by decide) (by decide)

def c1TiePage : BoxPage :=
  ⟨["/teams/VIS/2022.html", "/teams/HOM/2022.html"], false, "",
   [("box-VIS-game-basic", [⟨"pts", "100"⟩]), ("box-HOM-game-basic", [⟨"pts", "100"⟩])]⟩

def c1TieData : BoxData :=
  ⟨⟨2022, 1, 1⟩, "VIS", "HOM", 0, PyScalar.i 0,
   [("visit_pts", "100"), ("home_pts", "100")], "VIS"⟩

/-- C1 counterexample: on a page where both pts fields are 100, get_boxscore
declares the visiting team the winner, so ties do not go to the home team
and the winner is not a team with strictly more points. -/
theorem game_result_tie_counterexample :
    get_boxscore (fun _ => c1TiePage) c1Url = .ok c1TieData ∧
    dictGet c1TieData.stats ("home_pts") = dictGet c1TieData.stats ("visit_pts") ∧
    c1TieData.game_result = c1TieData.visit_team ∧
    c1TieData.game_result ≠ c1TieData.home_team := by
  refine ⟨by decide, by decide, by decide, by decide⟩

/- ------------------------------------------------------------------ -/
/- C7: footer stat cells copied into the result dict                  -/
/- ------------------------------------------------------------------ -/

lemma stats_foldl_eq (l : List (BoxCell × BoxCell)) :
    l.foldl
      (fun acc p =>
        acc ++ [("visit_" ++ p.1.dataStat, p.1.text), ("home_" ++ p.2.dataStat, p.2.text)])
      []
    = (l.map (fun p =>
        [("visit_" ++ p.1.dataStat, p.1.text), ("home_" ++ p.2.dataStat, p.2.text)])).flatten := by
  simpa using foldl_append_join
    (fun p : BoxCell × BoxCell =>
      [("visit_" ++ p.1.dataStat, p.1.text), ("home_" ++ p.2.dataStat, p.2.text)]) l []

lemma mem_zip_fst {α β : Type} {l1 : List α} {l2 : List β} (hlen : l1.length = l2.length)
    {c : α} (hc : c ∈ l1) : ∃ p, p ∈ l1.zip l2 ∧ p.1 = c := by
  obtain ⟨i, hi⟩ := List.mem_iff_get.mp hc
  have hlt : (i : Nat) < (l1.zip l2).length := by
    simp only [List.length_zip, hlen, min_self]
    omega
  refine ⟨(l1.zip l2).get ⟨i, hlt⟩, List.get_mem _ _ _, ?_⟩
  simp only [List.get_eq_getElem, List.getElem_zip]
  simpa [List.get_eq_getElem] using hi

lemma mem_zip_snd {α β : Type} {l1 : List α} {l2 : List β} (hlen : l1.length = l2.length)
    {c : β} (hc : c ∈ l2) : ∃ p, p ∈ l1.zip l2 ∧ p.2 = c := by
  obtain ⟨i, hi⟩ := List.mem_iff_get.mp hc
  have hlt : (i : Nat) < (l1.zip l2).length := by
    simp only [List.length_zip, hlen, min_self]
    omega
  refine ⟨(l1.zip l2).get ⟨i, hlt⟩, List.get_mem _ _ _, ?_⟩
  simp only [List.get_eq_getElem, List.getElem_zip]
  simpa [List.get_eq_getElem] using hi

/-- C7 (amended): get_boxscore copies the non-empty footer cells of the two
team tables pairwise (Python zip), so whenever both teams have the same
number of non-empty footer cells, every non-empty footer cell of either team
appears in the result keyed by its stat name with the visit_/home_ prefix;
with unequal counts the surplus cells of the longer side are dropped. -/
theorem boxscore_footer_cells_copied_pairwise (fetch : String → BoxPage) (url : String)
    (d : BoxData) (vtab htab : List BoxCell)
    (h : get_boxscore fetch url = .ok d)
    (hv : (fetch url).tables.lookup ("box-" ++ d.visit_team ++ "-game-basic") = some vtab)
    (hh : (fetch url).tables.lookup ("box-" ++ d.home_team ++ "-game-basic") = some htab)
    (hlen : (vtab.filter (fun c => pyStrip c.text != "")).length
          = (htab.filter (fun c => pyStrip c.text != "")).length) :
    (∀ c ∈ vtab.filter (fun c => pyStrip c.text != ""),
        ("visit_" ++ c.dataStat, c.text) ∈ d.stats) ∧
    (∀ c ∈ htab.filter (fun c => pyStrip c.text != ""),
        ("home_" ++ c.dataStat, c.text) ∈ d.stats) := by
  simp only [get_boxscore, except_bind_ok, req_ok, except_pure_ok] at h
  obtain ⟨md, hmd, href0, h0, visit, hv0, href1, h1, home, hh0, pr, hpr,
    vtab0, hvt, htab0, hht, hs, hhs, vs, hvs, hp, hhp, vp, hvp, hd⟩ := h
  subst hd
  simp only at hv hh
  rw [hv] at hvt
  rw [hh] at hht
  obtain rfl : vtab = vtab0 := by injection hvt
  obtain rfl : htab = htab0 := by injection hht
  simp only [stats_foldl_eq]
  constructor
  · intro c hc
    obtain ⟨p, hpmem, hpeq⟩ := mem_zip_fst hlen hc
    refine List.mem_flatten.mpr
      ⟨[("visit_" ++ p.1.dataStat, p.1.text), ("home_" ++ p.2.dataStat, p.2.text)],
       List.mem_map_of_mem _ hpmem, ?_⟩
    rw [hpeq]
    simp
  · intro c hc
    obtain ⟨p, hpmem, hpeq⟩ := mem_zip_snd hlen hc
    refine List.mem_flatten.mpr
      ⟨[("visit_" ++ p.1.dataStat, p.1.text), ("home_" ++ p.2.dataStat, p.2.text)],
       List.mem_map_of_mem _ hpmem, ?_⟩
    rw [hpeq]
    simp

def c7Page : BoxPage :=
  ⟨["/teams/VIS/2022.html", "/teams/HOM/2022.html"], false, "",
   [("box-VIS-game-basic", [⟨"pts", "100"⟩, ⟨"ast", "20"⟩]),
    ("box-HOM-game-basic", [⟨"pts", "100"⟩, ⟨"ast", "25"⟩])]⟩

def c7Data : BoxData :=
  ⟨⟨2022, 1, 1⟩, "VIS", "HOM", 0, PyScalar.i 0,
   [("visit_pts", "100"), ("home_pts", "100"), ("visit_ast", "20"), ("home_ast", "25")],
   "VIS"⟩

theorem boxscore_footer_cells_copied_pairwise_witness :
    ("visit_ast", "20") ∈ c7Data.stats ∧ ("home_ast", "25") ∈ c7Data.stats :=
  ⟨(boxscore_footer_cells_copied_pairwise (fun _ => c7Page) c1Url c7Data
      [⟨"pts", "100"⟩, ⟨"ast", "20"⟩] [⟨"pts", "100"⟩, ⟨"ast", "25"⟩]
      (by decide) (by decide) (by decide) (by decide)).1 ⟨"ast", "20"⟩ (by decide),
   (boxscore_footer_cells_copied_pairwise (fun _ => c7Page) c1Url c7Data
      [⟨"pts", "100"⟩, ⟨"ast", "20"⟩] [⟨"pts", "100"⟩, ⟨"ast", "25"⟩]
      (by decide) (by decide) (by decide) (by decide)).2 ⟨"ast", "25"⟩ (by decide)⟩

def c7CexPage : BoxPage :=
  ⟨["/teams/VIS/2022.html", "/teams/HOM/2022.html"], false, "",
   [("box-VIS-game-basic", [⟨"pts", "100"⟩, ⟨"ast", "20"⟩]),
    ("box-HOM-game-basic", [⟨"pts", "90"⟩])]⟩

def c7CexData : BoxData :=
  ⟨⟨2022, 1, 1⟩, "VIS", "HOM", 0, PyScalar.i 0,
   [("visit_pts", "100"), ("home_pts", "90")], "VIS"⟩

/-- C7 counterexample: the visiting footer holds the non-empty cells pts and
ast but the home footer only pts, so zip truncates the pairing and the
non-empty visiting ast cell is omitted from the result — no visit_ast key
exists — refuting that no non-empty footer cell of either team is omitted. -/
theorem boxscore_zip_omits_cell_counterexample :
    get_boxscore (fun _ => c7CexPage) c1Url = .ok c7CexData ∧
    (⟨"ast", "20"⟩ : BoxCell) ∈
      ((((fun _ => c7CexPage) c1Url).tables.lookup ("box-VIS-game-basic")).getD []) ∧
    (pyStrip ("20") != "") = true ∧
    dictGet c7CexData.stats ("visit_ast") = none := by
  refine ⟨by decide, by decide, by decide, by decide⟩

/- ------------------------------------------------------------------ -/
/- C10: match_date comes from URL offsets 47..54, not from the page   -/
/- ------------------------------------------------------------------ -/

lemma string_data_append (a b : String) : (a ++ b).data = a.data ++ b.data := by
  cases a
  cases b
  rfl

lemma asString_data (s : String) : s.data.asString = s := by
  cases s
  rfl

/-- C10: the match_date field of get_boxscore is the strptime parse of the
characters at offsets 47 through 54 of the request URL — independent of the
fetched page — and for a canonical box-score URL (the fixed base, then
/boxscores/, then an 8-character date) it is exactly the parse of that date
segment.  A URL of any other shape can only yield whatever date happens to
sit at those offsets, or a parse failure, before the page is consulted. -/
theorem boxscore_match_date_from_url_offsets (fetch fetch2 : String → BoxPage)
    (url : String) (d d2 : BoxData)
    (h : get_boxscore fetch url = .ok d)
    (h2 : get_boxscore fetch2 url = .ok d2) :
    pyStrptimeYmd (pySlice url 47 55) = some d.match_date ∧
    d2.match_date = d.match_date ∧
    ∀ ymd rest : String,
      url = BASE_URL ++ "/boxscores/" ++ ymd ++ rest → ymd.data.length = 8 →
      pyStrptimeYmd ymd = some d.match_date := by
  simp only [get_boxscore, except_bind_ok, req_ok, except_pure_ok] at h h2
  obtain ⟨md, hmd, href0, h0, visit, hv0, href1, h1, home, hh0, pr, hpr,
    vtab, hvt, htab, hht, hs, hhs, vs, hvs, hp, hhp, vp, hvp, hd⟩ := h
  obtain ⟨md2, hmd2, href02, h02, visit2, hv02, href12, h12, home2, hh02, pr2, hpr2,
    vtab2, hvt2, htab2, hht2, hs2, hhs2, vs2, hvs2, hp2, hhp2, vp2, hvp2, hd2⟩ := h2
  subst hd
  subst hd2
  have hmd' : md2 = md := by
    rw [hmd] at hmd2
    exact (Option.some.inj hmd2).symm
  refine ⟨hmd, by simpa using hmd', ?_⟩
  intro ymd rest hurl hlen
  have hslice : pySlice url 47 55 = ymd := by
    have hdata : url.data
        = (BASE_URL ++ "/boxscores/").data ++ (ymd.data ++ rest.data) := by
      rw [hurl]
      rw [string_data_append, string_data_append, string_data_append]
      simp [List.append_assoc]
    have h47 : (47 : Nat) = (BASE_URL ++ "/boxscores/").data.length := by rfl
    unfold pySlice
    rw [hdata, h47, List.drop_left]
    have h8 : 55 - (BASE_URL ++ "/boxscores/").data.length = ymd.data.length := by
      rw [← h47, hlen]
    rw [h8, List.take_left, asString_data]
  rw [← hslice]
  exact hmd

def c10Url : String := BASE_URL ++ "/boxscores/202306040MIA.html"

def c10Page : BoxPage :=
  ⟨["/teams/DEN/2023.html", "/teams/MIA/2023.html"], false, "",
   [("box-DEN-game-basic", [⟨"pts", "109"⟩]), ("box-MIA-game-basic", [⟨"pts", "94"⟩])]⟩

def c10Data : BoxData :=
  ⟨⟨2023, 6, 4⟩, "DEN", "MIA", 0, PyScalar.i 0,
   [("visit_pts", "109"), ("home_pts", "94")], "DEN"⟩

theorem boxscore_match_date_from_url_offsets_witness :
    pyStrptimeYmd (pySlice c10Url 47 55) = some c10Data.match_date ∧
    pyStrptimeYmd ("20230604") = some c10Data.match_date :=
  ⟨(boxscore_match_date_from_url_offsets (fun _ => c10Page) (fun _ => c10Page)
      c10Url c10Data c10Data (by decide) (by decide)).1,
   (boxscore_match_date_from_url_offsets (fun _ => c10Page) (fun _ => c10Page)
      c10Url c10Data c10Data (by decide) (by decide)).2.2 ("20230604") "0MIA.html"
      (by decide) (by decide)⟩

/- ------------------------------------------------------------------ -/
/- C6: roster record count and field coercions                        -/
/- ------------------------------------------------------------------ -/

lemma processRows_ok_length {rows : List (List RosterCell)}
    {recs : List (List (String × PyVal))} (h : processRows rows = .ok recs) :
    recs.length = rows.length := by
  induction rows generalizing recs with
  | nil =>
    simp only [processRows, except_pure_ok] at h
    simp [← h]
  | cons r rest ih =>
    simp only [processRows, except_bind_ok, except_pure_ok] at h
    obtain ⟨d, hd, ds, hds, hrec⟩ := h
    subst hrec
    simp [ih hds]

lemma processRows_ok_get {rows : List (List RosterCell)}
    {recs : List (List (String × PyVal))} (h : processRows rows = .ok recs) :
    ∀ i (hi : i < rows.length) (hr : i < recs.length),
      processRow (rows.get ⟨i, hi⟩) = .ok (recs.get ⟨i, hr⟩) := by
  induction rows generalizing recs with
  | nil =>
    intro i hi
    exact absurd hi (by simp)
  | cons r rest ih =>
    simp only [processRows, except_bind_ok, except_pure_ok] at h
    obtain ⟨d, hd, ds, hds, hrec⟩ := h
    subst hrec
    intro i hi hr
    match i with
    | 0 => simpa using hd
    | j + 1 =>
      have hj : j < rest.length := by simpa using hi
      have hjr : j < ds.length := by simpa using hr
      simpa using ih hds j hj hjr

lemma processRow_cell_pairs {row : List RosterCell} {rec : List (String × PyVal)}
    (h : processRow row = .ok rec) {c : RosterCell} (hc : c ∈ row) :
    ∃ ps, cellPairs c = .ok ps ∧ ∀ p ∈ ps, p ∈ rec := by
  induction row generalizing rec with
  | nil => cases hc
  | cons x rest ih =>
    simp only [processRow, except_bind_ok, except_pure_ok] at h
    obtain ⟨ps0, hps0, rs, hrs, hrec⟩ := h
    subst hrec
    rcases List.mem_cons.mp hc with hcx | hcr
    · subst hcx
      exact ⟨ps0, hps0, fun p hp => List.mem_append_left _ hp⟩
    · obtain ⟨ps, hps, hmem⟩ := ih hrs hcr
      exact ⟨ps, hps, fun p hp => List.mem_append_right _ (hmem p hp)⟩

lemma cellPairs_weight {c : RosterCell} {ps : List (String × PyVal)}
    (hds : c.dataStat = "weight") (h : cellPairs c = .ok ps) :
    ∃ n, pyInt c.text = some n ∧ ps = [("weight", PyVal.vInt n)] := by
  rw [cellPairs, hds] at h
  simp only [except_bind_ok, req_ok, except_pure_ok] at h
  obtain ⟨n, hn, hps⟩ := h
  exact ⟨n, hn, hps.symm⟩

lemma cellPairs_height {c : RosterCell} {ps : List (String × PyVal)}
    (hds : c.dataStat = "height") (h : cellPairs c = .ok ps) :
    ∃ k, c.csk = some k ∧ ps = [("height", PyVal.vFloat k)] := by
  rw [cellPairs, hds] at h
  simp only [except_bind_ok, req_ok, except_pure_ok] at h
  obtain ⟨k, hk, hps⟩ := h
  exact ⟨k, hk, hps.symm⟩

lemma cellPairs_years {c : RosterCell} {ps : List (String × PyVal)}
    (hds : c.dataStat = "years_experience") (h : cellPairs c = .ok ps) :
    ∃ k, c.csk = some k ∧ ps = [("years_experience", PyVal.vFloat k)] := by
  rw [cellPairs, hds] at h
  simp only [except_bind_ok, req_ok, except_pure_ok] at h
  obtain ⟨k, hk, hps⟩ := h
  exact ⟨k, hk, hps.symm⟩

/-- C6: when get_roster succeeds on a roster page whose table body has N
rows, it returns exactly N records in table order, and in every record the
weight entry is the integer coercion of the weight cell text while the
height and years-of-experience entries are decimal coercions of the cell's
csk sortable attribute, not of its display text. -/
theorem roster_length_and_coercions (fetch : String → List (List RosterCell))
    (team : String) (year : Nat) (recs : List (List (String × PyVal)))
    (h : get_roster fetch team year = .ok recs) :
    recs.length = (fetch (teamPageUrl team year)).length ∧
    ∀ i (hi : i < (fetch (teamPageUrl team year)).length) (hr : i < recs.length),
      processRow ((fetch (teamPageUrl team year)).get ⟨i, hi⟩) = .ok (recs.get ⟨i, hr⟩) ∧
      ∀ c ∈ (fetch (teamPageUrl team year)).get ⟨i, hi⟩,
        (c.dataStat = "weight" →
          ∃ n, pyInt c.text = some n ∧ ("weight", PyVal.vInt n) ∈ recs.get ⟨i, hr⟩) ∧
        (c.dataStat = "height" →
          ∃ k, c.csk = some k ∧ ("height", PyVal.vFloat k) ∈ recs.get ⟨i, hr⟩) ∧
        (c.dataStat = "years_experience" →
          ∃ k, c.csk = some k ∧ ("years_experience", PyVal.vFloat k) ∈ recs.get ⟨i, hr⟩) := by
  rw [get_roster] at h
  refine ⟨processRows_ok_length h, ?_⟩
  intro i hi hr
  have hrow := processRows_ok_get h i hi hr
  refine ⟨hrow, ?_⟩
  intro c hc
  obtain ⟨ps, hps, hmem⟩ := processRow_cell_pairs hrow hc
  refine ⟨?_, ?_, ?_⟩
  · intro hds
    obtain ⟨n, hn, hpseq⟩ := cellPairs_weight hds hps
    exact ⟨n, hn, hmem _ (by simp [hpseq])⟩
  · intro hds
    obtain ⟨k, hk, hpseq⟩ := cellPairs_height hds hps
    exact ⟨k, hk, hmem _ (by simp [hpseq])⟩
  · intro hds
    obtain ⟨k, hk, hpseq⟩ := cellPairs_years hds hps
    exact ⟨k, hk, hmem _ (by simp [hpseq])⟩

def c6Row : List RosterCell :=
  [⟨"player", "LeBron James", some ("James,LeBron"), some ("/players/j/jamesle01.html"), none⟩,
   ⟨"weight", "250", none, none, none⟩,
   ⟨"height", "6-9", some ("81.0"), none, none⟩,
   ⟨"years_experience", "19", some ("19.0"), none, none⟩,
   ⟨"pos", "F", none, none, none⟩]

def c6Fetch : String → List (List RosterCell) := fun _ => [c6Row]

def c6Recs : List (List (String × PyVal)) :=
  [[("player", PyVal.vStr ("James,LeBron")),
    ("url", PyVal.vStr ("/players/j/jamesle01.html")),
    ("playerid", PyVal.vStr ("jamesle01")),
    ("weight", PyVal.vInt 250),
    ("height", PyVal.vFloat ("81.0")),
    ("years_experience", PyVal.vFloat ("19.0")),
    ("pos", PyVal.vStr ("F"))]]

theorem roster_length_and_coercions_witness :
    c6Recs.length = (c6Fetch (teamPageUrl ("LAL") 2022)).length :=
  (roster_length_and_coercions c6Fetch ("LAL") 2022 c6Recs (by decide)).1

/- ------------------------------------------------------------------ -/
/- C2: injury report lookup phases                                    -/
/- ------------------------------------------------------------------ -/

/-- C2 (amended): get_injury_report looks for the all-injuries container
div and then for a comment node inside it, returning null when either is
absent; it never consults a directly visible table.  When the comment is
present its embedded HTML must contain a table: if it does not, the call
raises instead of returning null; when it does, the csk values of the
csk-bearing th cells are returned. -/
theorem injury_report_two_phase_cases (fetch : String → InjPage) (team : String)
    (year : Nat) :
    ((fetch (teamPageUrl team year)).container = none →
      get_injury_report fetch team year = .ok none) ∧
    (∀ cont, (fetch (teamPageUrl team year)).container = some cont →
      cont.comment = none → get_injury_report fetch team year = .ok none) ∧
    (∀ cont doc, (fetch (teamPageUrl team year)).container = some cont →
      cont.comment = some doc → doc.table = none →
      get_injury_report fetch team year = .error ()) ∧
    (∀ cont doc ths, (fetch (teamPageUrl team year)).container = some cont →
      cont.comment = some doc → doc.table = some ths →
      get_injury_report fetch team year = .ok (some (ths.filterMap InjTh.csk))) := by
  refine ⟨?_, ?_, ?_, ?_⟩
  · intro h1
    simp [get_injury_report, h1]
  · intro cont h1 h2
    simp [get_injury_report, h1, h2]
  · intro cont doc h1 h2 h3
    simp [get_injury_report, h1, h2, h3]
  · intro cont doc ths h1 h2 h3
    simp [get_injury_report, h1, h2, h3]

def c2OkFetch : String → InjPage :=
  fun _ => ⟨some ⟨none, some ⟨some [⟨some ("Tatum,Jayson")⟩, ⟨none⟩]⟩⟩⟩

theorem injury_report_two_phase_cases_witness :
    get_injury_report c2OkFetch ("BOS") 2024 = .ok (some ["Tatum,Jayson"]) :=
  ((injury_report_two_phase_cases c2OkFetch ("BOS") 2024).2.2.2
      ⟨none, some ⟨some [⟨some ("Tatum,Jayson")⟩, ⟨none⟩]⟩⟩
      ⟨some [⟨some ("Tatum,Jayson")⟩, ⟨none⟩]⟩
      [⟨some ("Tatum,Jayson")⟩, ⟨none⟩] rfl rfl rfl).trans (by decide)

def c2CexFetch : String → InjPage := fun _ => ⟨some ⟨none, some ⟨none⟩⟩⟩

/-- C2 counterexample: a page whose injuries container and comment both
exist but whose comment HTML holds no table — so no injuries table is found
by any phase — makes get_injury_report raise rather than return null,
refuting that a missing table always yields null/empty and never an error
(the code also never looks for a direct table: the container here is
consulted only for its comment). -/
theorem injury_comment_without_table_counterexample :
    (c2CexFetch (teamPageUrl ("BOS") 2023)).container = some ⟨none, some ⟨none⟩⟩ ∧
    get_injury_report c2CexFetch ("BOS") 2023 = .error () := by
  refine ⟨by decide, by decide⟩

/- ------------------------------------------------------------------ -/
/- C8: unbounded retry on network errors                              -/
/- ------------------------------------------------------------------ -/

lemma retryLoop_ok_not_netErr (attempts : Nat → Attempt) :
    ∀ fuel i a t, retryLoop attempts fuel i = some (a, t) → a ≠ .netErr := by
  intro fuel
  induction fuel with
  | zero => intro i a t h; cases h
  | succ f ih =>
    intro i a t h
    cases hA : attempts i with
    | netErr =>
      rw [retryLoop, hA] at h
      exact ih (i + 1) a t h
    | ok body =>
      rw [retryLoop, hA] at h
      obtain ⟨rfl, rfl⟩ : a = Attempt.ok body ∧ t = 3 * i := by
        cases h; exact ⟨rfl, rfl⟩
      simp
    | err =>
      rw [retryLoop, hA] at h
      obtain ⟨rfl, rfl⟩ : a = Attempt.err ∧ t = 3 * i := by
        cases h; exact ⟨rfl, rfl⟩
      simp

lemma retryLoop_skips_netErr (attempts : Nat → Attempt) :
    ∀ n i, (∀ j, j < n → attempts (i + j) = .netErr) → attempts (i + n) ≠ .netErr →
      retryLoop attempts (n + 1) i = some (attempts (i + n), 3 * (i + n)) := by
  intro n
  induction n with
  | zero =>
    intro i _ h2
    simp only [Nat.add_zero] at h2
    cases hA : attempts i with
    | netErr => exact absurd hA h2
    | ok body => simp [retryLoop, hA]
    | err => simp [retryLoop, hA]
  | succ m ih =>
    intro i h1 h2
    have hA : attempts i = .netErr := by
      have := h1 0 (Nat.succ_pos m)
      simpa using this
    rw [retryLoop, hA]
    have hshift : ∀ j, j < m → attempts (i + 1 + j) = .netErr := by
      intro j hj
      have := h1 (j + 1) (by omega)
      have harr : i + 1 + j = i + (j + 1) := by omega
      rw [harr]
      exact this
    have harr2 : i + 1 + m = i + (m + 1) := by omega
    have h2' : attempts (i + 1 + m) ≠ .netErr := by rw [harr2]; exact h2
    have := ih (i + 1) hshift h2'
    rw [this, harr2]

/-- C8: make_request retries on every network error with a fixed 3-second
wait and no attempt bound — after any number k of consecutive network
errors it still proceeds to attempt k, having waited 3k seconds — and a
network error is never the surfaced outcome: whatever the fuel, a returned
outcome is a response or a non-network exception. -/
theorem make_request_retries_network_errors (attempts : Nat → Attempt) (k : Nat)
    (h1 : ∀ j, j < k → attempts j = .netErr) (h2 : attempts k ≠ .netErr) :
    make_request attempts (k + 1) = some (attempts k, 3 * k) ∧
    ∀ fuel r, make_request attempts fuel = some r → r.1 ≠ .netErr := by
  constructor
  · have := retryLoop_skips_netErr attempts k 0 (by simpa using h1) (by simpa using h2)
    simpa [make_request] using this
  · intro fuel r h
    exact retryLoop_ok_not_netErr attempts fuel 0 r.1 r.2 (by simpa using h)

def c8Attempts : Nat → Attempt := fun i => if i < 2 then .netErr else .ok ("page")

theorem make_request_retries_network_errors_witness :
    make_request c8Attempts 3 = some (Attempt.ok ("page"), 6) ∧
    Attempt.ok ("page") ≠ Attempt.netErr :=
  ⟨((make_request_retries_network_errors c8Attempts 2 (by decide) (by decide)).1).trans
      (by decide),
   by simp⟩

/- ------------------------------------------------------------------ -/
/- C9: rate limiter spacing (spec-modelled)                           -/
/- ------------------------------------------------------------------ -/

lemma fetchTimes_head? (first : Nat) (ds : List Nat) :
    (fetchTimes first ds).head? = some first := by
  cases ds <;> rfl

lemma fetchTimes_getLast? (first : Nat) (ds : List Nat) :
    ∃ last, (fetchTimes first ds).getLast? = some last := by
  induction ds generalizing first with
  | nil => exact ⟨first, rfl⟩
  | cons d rest ih =>
    obtain ⟨last, hlast⟩ := ih (nextFire first d)
    refine ⟨last, ?_⟩
    rw [fetchTimes]
    rw [List.getLast?_cons]
    rw [← hlast]
    cases hshape : fetchTimes (nextFire first d) rest with
    | nil =>
      exfalso
      rw [hshape] at hlast
      cases hlast
    | cons x xs => simp [List.getLast?_cons]

/-- C9 (spec-modelled): under the one-call-per-3-seconds limiter with
sleep-and-retry, every run of K consecutive fetches has successive firing
times at least 3 seconds apart, so the elapsed wall time from the first to
the last firing is at least 3 (K - 1) seconds. -/
theorem rate_limiter_spacing (first : Nat) (ds : List Nat) :
    (fetchTimes first ds).length = ds.length + 1 ∧
    List.Chain' (fun a b => a + 3 ≤ b) (fetchTimes first ds) ∧
    ∃ last, (fetchTimes first ds).getLast? = some last ∧
      first + 3 * ds.length ≤ last := by
  induction ds generalizing first with
  | nil =>
    exact ⟨rfl, List.chain'_singleton first, first, rfl, by simp⟩
  | cons d rest ih =>
    obtain ⟨hlen, hchain, last, hlast, hle⟩ := ih (nextFire first d)
    have hfire : first + 3 ≤ nextFire first d := by
      simp only [nextFire]
      omega
    refine ⟨by simpa [fetchTimes] using hlen, ?_, last, ?_, ?_⟩
    · rw [fetchTimes]
      refine List.chain'_cons'.mpr ⟨?_, hchain⟩
      intro y hy
      rw [fetchTimes_head?] at hy
      obtain rfl : nextFire first d = y := by
        simpa [Option.mem_def] using hy
      exact hfire
    · rw [fetchTimes, List.getLast?_cons, ← hlast]
      cases hshape : fetchTimes (nextFire first d) rest with
      | nil =>
        exfalso
        obtain ⟨l2, hl2⟩ := fetchTimes_getLast? (nextFire first d) rest
        rw [hshape] at hl2
        cases hl2
      | cons x xs => simp [List.getLast?_cons]
    · simp only [List.length_cons]
      omega

end BasketballRef
